import Mathlib

/-!
# The exported Tailwind configuration of `tailwind.config.js`

The source file is one object literal assigned to `module.exports`.  It is
embedded below as a value of a small JavaScript-value type, property by
property and in the order of the literal.  An object literal is kept as the
ordered list of its `key: value` pairs, exactly as written, so that questions
about the literal itself (is a key written twice?) can be asked.
-/

set_option autoImplicit false

namespace TailwindConfig

/-- JavaScript values that occur in the configuration literal. -/
inductive Js where
  | num (n : Int)
  | str (s : String)
  | bool (b : Bool)
  | arr (items : List Js)
  | obj (fields : List (String × Js))

/-! ## The literal -/

/-- Lines 3-6: `content: { relative: true, files: ["*.html", "./src/**/*.rs"] }`. -/
def content : Js :=
  .obj [
    ("relative", .bool true),
    ("files", .arr [.str "*.html", .str "./src/**/*.rs"])
  ]

/-- Lines 8-30: `theme.colors`. -/
def colors : Js :=
  .obj [
    ("background", .str "#2e3440"),
    ("foreground", .str "#cdcecf"),
    ("cursorColor", .str "#cdcecf"),
    ("selectionBackground", .str "#3e4a5b"),
    ("black", .str "#3b4252"),
    ("blue", .str "#81a1c1"),
    ("cyan", .str "#88c0d0"),
    ("green", .str "#a3be8c"),
    ("purple", .str "#b48ead"),
    ("red", .str "#bf616a"),
    ("white", .str "#e5e9f0"),
    ("yellow", .str "#ebcb8b"),
    ("orange", .str "#d08770"),
    ("brightBlack", .str "#465780"),
    ("brightBlue", .str "#8cafd2"),
    ("brightCyan", .str "#93ccdc"),
    ("brightGreen", .str "#b1d196"),
    ("brightPurple", .str "#c895bf"),
    ("brightRed", .str "#d06f79"),
    ("brightWhite", .str "#e7ecf4"),
    ("brightYellow", .str "#f0d399")
  ]

/-- Lines 33-35: `blink: { '50%': { opacity: 0 } }`, the value of
`theme.extend.keyframes.blink`. -/
def blink : Js :=
  .obj [("50%", .obj [("opacity", .num 0)])]

/-- Lines 32-36: `theme.extend.keyframes`. -/
def keyframes : Js :=
  .obj [("blink", blink)]

/-- Lines 37-39: `theme.extend.animation`. -/
def animation : Js :=
  .obj [("blink", .str "blink 1s ease-in-out infinite")]

/-- Lines 31-40: `theme.extend`. -/
def extend : Js :=
  .obj [("keyframes", keyframes), ("animation", animation)]

/-- Lines 7-41: `theme`. -/
def theme : Js :=
  .obj [("colors", colors), ("extend", extend)]

/-- Line 42: `plugins: []`. -/
def plugins : Js :=
  .arr []

/-- Lines 2-43: the object assigned to `module.exports`. -/
def exports : Js :=
  .obj [("content", content), ("theme", theme), ("plugins", plugins)]

/-! ## Reading the literal -/

/-- The `key: value` pairs of an object literal, in written order; a value
that is not an object has none. -/
def Js.fields : Js → List (String × Js)
  | .obj fs => fs
  | _ => []

/-- The keys of an object literal, in written order, repetitions included. -/
def Js.keys (v : Js) : List String :=
  v.fields.map Prod.fst

/-- The string inside a string value. -/
def Js.asStr : Js → Option String
  | .str s => some s
  | _ => none

/-- Property lookup in a list of `key: value` pairs: the first pair with
that key. -/
def lookup {β : Type} (k : String) : List (String × β) → Option β
  | [] => none
  | (k', v) :: rest => if k' = k then some v else lookup k rest

/-- Property access `v[k]`. -/
def Js.get (v : Js) (k : String) : Option Js :=
  lookup k v.fields

/-- The strings of `content.files`, in order (`none` if `files` is missing,
is not an array, or holds something that is not a string). -/
def contentFiles : Option (List String) :=
  match content.get "files" with
  | some (.arr xs) => xs.mapM Js.asStr
  | _ => none

/-! ## Colour values -/

/-- A lowercase hexadecimal digit: `0`-`9` or `a`-`f`. -/
def isLowerHexDigit (c : Char) : Bool :=
  (48 ≤ c.toNat && c.toNat ≤ 57) || (97 ≤ c.toNat && c.toNat ≤ 102)

/-- The string values of a list of pairs; `none` when some value is not a string. -/
def stringValues (fs : List (String × Js)) : Option (List String) :=
  fs.mapM (fun kv => kv.2.asStr)

/-! ## Glob patterns -/

/-- White space: space, tab, line feed, vertical tab, form feed, carriage return. -/
def isWhitespace (c : Char) : Bool :=
  c.toNat == 32 || (9 ≤ c.toNat && c.toNat ≤ 13)

/-- A pattern made of white space only; the empty pattern is one of them. -/
def isBlank (p : String) : Bool :=
  p.data.all isWhitespace

/-- A pattern that contains a backslash (character 92). -/
def usesBackslash (p : String) : Bool :=
  p.data.any (fun c => c.toNat == 92)

/-- A pattern that begins with `/`. -/
def startsWithSlash (p : String) : Bool :=
  match p.data with
  | c :: _ => c.toNat == 47
  | [] => false

/-- A pattern that begins with a drive: an ASCII letter followed by `:`. -/
def hasDriveLetter (p : String) : Bool :=
  match p.data with
  | c :: d :: _ => c.isAlpha && d.toNat == 58
  | _ => false

/-- An absolute pattern: rooted at `/` or at a drive. -/
def isAbsolutePattern (p : String) : Bool :=
  startsWithSlash p || hasDriveLetter p

/-! ## Animation shorthands and keyframe selectors -/

/-- Split at every single space (character 32); two adjacent spaces give an
empty component. -/
def splitOnSpace : List Char → List (List Char)
  | [] => [[]]
  | c :: cs =>
      if c.toNat == 32 then [] :: splitOnSpace cs
      else
        match splitOnSpace cs with
        | [] => [[c]]
        | w :: ws => (c :: w) :: ws

/-- The components of a shorthand string, split on single spaces. -/
def components (s : String) : List String :=
  (splitOnSpace s.data).map String.mk

/-- The first whitespace-separated word of a string. -/
def firstWord (s : String) : String :=
  String.mk ((s.data.dropWhile isWhitespace).takeWhile (fun c => !isWhitespace c))

/-- The value of a string of decimal digits. -/
def digitsValue (ds : List Char) : Nat :=
  ds.foldl (fun n c => 10 * n + (c.toNat - 48)) 0

/-- A non-empty run of decimal digits. -/
def isDigits (ds : List Char) : Bool :=
  !ds.isEmpty && ds.all Char.isDigit

/-- The digits before the decimal point and, when there is a point, the
characters after it. -/
def splitAtPoint (cs : List Char) : List Char × Option (List Char) :=
  (cs.takeWhile (fun c => c.toNat != 46),
   match cs.dropWhile (fun c => c.toNat != 46) with
   | [] => none
   | _ :: frac => some frac)

/-- An unsigned decimal number: digits, optionally a point and more digits. -/
def isNumber (s : String) : Bool :=
  match splitAtPoint s.data with
  | (whole, none) => isDigits whole
  | (whole, some frac) => isDigits whole && isDigits frac

/-- An unsigned decimal number that lies between 0 and 100. -/
def isNumberUpTo100 (cs : List Char) : Bool :=
  match splitAtPoint cs with
  | (whole, none) => isDigits whole && digitsValue whole ≤ 100
  | (whole, some frac) =>
      isDigits whole && isDigits frac &&
        (digitsValue whole < 100 ||
          (digitsValue whole == 100 && frac.all (fun c => c.toNat == 48)))

/-- A percentage string: a number from 0 to 100 followed by `%` (character 37). -/
def isPercentage (s : String) : Bool :=
  match s.data.reverse with
  | c :: rest => c.toNat == 37 && isNumberUpTo100 rest.reverse
  | [] => false

/-- A keyframe selector: a percentage, or the start keyword `from`, or the
end keyword `to`. -/
def isSelector (s : String) : Bool :=
  isPercentage s || s == "from" || s == "to"

/-- An iteration count: a number or the literal `infinite`. -/
def isIterationCount (s : String) : Bool :=
  isNumber s || s == "infinite"

/-! ## The resolver the configuration is written for

The resolver (`normalize`, `merge`) is not part of the repository, which
holds the configuration only.  The two functions below follow the
specification of the resolver, sections 3, 4.1 and 4.2.
-/

/-- The error kinds of the resolver, each carrying the offending pattern or name. -/
inductive ResolveError where
  | InvalidGlobError (pattern : String)
  | DuplicateTokenError (name : String)
  | InvalidKeyframeError (name : String)
  | UnresolvedReferenceError (name : String)
  deriving DecidableEq

/-- The two shapes of `RawConfig.content`: a bare sequence of glob strings,
or an object with `relative` and `files`. -/
inductive RawContent where
  | bare (files : List String)
  | structured (relative : Bool) (files : List String)
  deriving DecidableEq

/-- The normalized content-scan descriptor. -/
structure GlobSpec where
  basePath : String
  patterns : List String
  deriving DecidableEq

/-- A `content` value read as one of the two shapes of `RawContent`; a
missing `relative` counts as `false`. -/
def readContent : Js → Option RawContent
  | .arr xs => (xs.mapM Js.asStr).map RawContent.bare
  | .obj fs =>
      match lookup "files" fs, lookup "relative" fs with
      | some (.arr xs), some (.bool b) => (xs.mapM Js.asStr).map (RawContent.structured b)
      | some (.arr xs), none => (xs.mapM Js.asStr).map (RawContent.structured false)
      | _, _ => none
  | _ => none

/-- Remove every leading `./` (characters 46, 47) of a pattern. -/
def stripDotSlash : List Char → List Char
  | c :: d :: rest =>
      if c.toNat == 46 && d.toNat == 47 then stripDotSlash rest else c :: d :: rest
  | cs => cs

/-- Modelled from the spec: the per-pattern step of `normalize` (section 4.1),
which is not in the repository.  The pattern loses its leading `./`
(section 8, example scenario).  It is rejected with `InvalidGlobError` when
it is empty, holds only white space or uses a backslash, and also when what
is left of it is empty or white space, so that every pattern of a `GlobSpec`
is non-empty (section 3); with `relative` set it is rejected when it, or what
is left of it, is absolute (section 9). -/
def normalizePattern (relative : Bool) (p : String) : Except ResolveError String :=
  let q := String.mk (stripDotSlash p.data)
  if isBlank p || usesBackslash p || isBlank q then .error (.InvalidGlobError p)
  else if relative && (isAbsolutePattern p || isAbsolutePattern q) then
    .error (.InvalidGlobError p)
  else .ok q

/-- Modelled from the spec: `normalizePattern` over the patterns in order,
stopping at the first rejected one. -/
def normalizePatterns (relative : Bool) : List String → Except ResolveError (List String)
  | [] => .ok []
  | p :: ps =>
      match normalizePattern relative p with
      | .error e => .error e
      | .ok q =>
          match normalizePatterns relative ps with
          | .error e => .error e
          | .ok qs => .ok (q :: qs)

/-- Modelled from the spec: `normalize(content, projectRoot)` of section 4.1,
which is not in the repository.  A bare sequence has `relative = false`; the
result is anchored at `projectRoot` and keeps the order of the patterns. -/
def normalize (c : RawContent) (projectRoot : String) : Except ResolveError GlobSpec :=
  match c with
  | .bare files =>
      match normalizePatterns false files with
      | .error e => .error e
      | .ok ps => .ok { basePath := projectRoot, patterns := ps }
  | .structured relative files =>
      match normalizePatterns relative files with
      | .error e => .error e
      | .ok ps => .ok { basePath := projectRoot, patterns := ps }

/-- A token group: names with their values, in insertion order. -/
abbrev Group := List (String × Js)

/-- A theme tree: named groups, in insertion order. -/
abbrev ThemeTree := List (String × Group)

/-- Set `k` to `v`: an existing name keeps its place and gets the new
value, a new name is added at the end. -/
def put {β : Type} (k : String) (v : β) : List (String × β) → List (String × β)
  | [] => [(k, v)]
  | (k', v') :: rest => if k' = k then (k, v) :: rest else (k', v') :: put k v rest

/-- Replace entry by entry: every entry of `top` is set in `base`, whole. -/
def replaceAll {β : Type} (base top : List (String × β)) : List (String × β) :=
  top.foldl (fun acc kv => put kv.1 kv.2 acc) base

mutual
/-- The value a name gets when `v` is unioned onto what the name has so far:
two nested groups are unioned entry by entry, at every level; in every
other case the new value overwrites. -/
def unionJs (existing : Option Js) : Js → Js
  | .obj e =>
      match existing with
      | some (.obj b) => .obj (unionFields b e)
      | _ => .obj e
  | .num n => .num n
  | .str s => .str s
  | .bool b => .bool b
  | .arr xs => .arr xs
/-- Union `ext` into `base`, entry by entry: existing names are unioned
with the new value, new names are added, no name is removed. -/
def unionFields (base : List (String × Js)) : List (String × Js) → List (String × Js)
  | [] => base
  | (k, v) :: rest => unionFields (put k (unionJs (lookup k base) v) base) rest
end

/-- The group named `g` of a tree, empty when the tree has no such group. -/
def groupOf (g : String) (t : ThemeTree) : Group :=
  (lookup g t).getD []

/-- The groups of a user-supplied object; a group that is not an object
cannot be ordered against a mapping and is a `DuplicateTokenError`. -/
def readGroups : List (String × Js) → Except ResolveError ThemeTree
  | [] => .ok []
  | (k, .obj g) :: rest =>
      match readGroups rest with
      | .error e => .error e
      | .ok t => .ok ((k, g) :: t)
  | (k, _) :: _ => .error (.DuplicateTokenError k)

/-- Modelled from the spec: `merge(defaultTree, userTree)` of section 4.2,
which is not in the repository.  Step 1 keeps the groups only the default
has; step 2 replaces a default group by the user's top-level group of that
name (a sibling of `extend`); step 3 then unions every group under
`extend` into the result of steps 1-2, so that `extend` wins a tie; step 4
is the recursion of `unionFields` into nested groups. -/
def merge (defaultTree : ThemeTree) (userTree : Js) : Except ResolveError ThemeTree :=
  match userTree with
  | .obj fs =>
      match readGroups (fs.filter (fun kv => kv.1 != "extend")) with
      | .error e => .error e
      | .ok top =>
          let replaced := replaceAll defaultTree top
          match lookup "extend" fs with
          | none => .ok replaced
          | some (.obj es) =>
              match readGroups es with
              | .error e => .error e
              | .ok ext =>
                  .ok (ext.foldl
                    (fun acc kg => put kg.1 (unionFields (groupOf kg.1 acc) kg.2) acc)
                    replaced)
          | some _ => .error (.DuplicateTokenError "extend")
  | _ => .error (.DuplicateTokenError "theme")

end TailwindConfig

/-! ## Lemmas on ordered key-value lists -/

namespace TailwindConfig

theorem lookup_put_self {β : Type} (k : String) (v : β) (l : List (String × β)) :
    lookup k (put k v l) = some v := by
  induction l with
  | nil => simp [put, lookup]
  | cons hd tl ih =>
    obtain ⟨k', v'⟩ := hd
    by_cases h : k' = k
    · simp [put, lookup, h]
    · simp [put, lookup, h, ih]

theorem lookup_put_of_ne {β : Type} {k k' : String} (h : k' ≠ k) (v : β)
    (l : List (String × β)) : lookup k' (put k v l) = lookup k' l := by
  induction l with
  | nil => simp [put, lookup, Ne.symm h]
  | cons hd tl ih =>
    obtain ⟨k₁, v₁⟩ := hd
    by_cases h₁ : k₁ = k
    · subst h₁
      simp [put, lookup, Ne.symm h]
    · simp [put, lookup, h₁, ih]

theorem mem_put_of_mem_of_ne {β : Type} {k : String} (v : β) {l : List (String × β)}
    {kv : String × β} (hmem : kv ∈ l) (h : kv.1 ≠ k) : kv ∈ put k v l := by
  induction l with
  | nil => cases hmem
  | cons hd tl ih =>
    obtain ⟨k₁, v₁⟩ := hd
    by_cases h₁ : k₁ = k
    · subst h₁
      rcases List.mem_cons.mp hmem with heq | htl
      · subst heq
        exact absurd rfl h
      · simp [put, htl]
    · rcases List.mem_cons.mp hmem with heq | htl
      · subst heq
        simp [put, h₁]
      · simp [put, h₁, ih htl]

theorem mem_keys_put {β : Type} (k : String) (v : β) {l : List (String × β)} {k' : String}
    (hmem : k' ∈ l.map Prod.fst) : k' ∈ (put k v l).map Prod.fst := by
  induction l with
  | nil => cases hmem
  | cons hd tl ih =>
    obtain ⟨k₁, v₁⟩ := hd
    by_cases h₁ : k₁ = k
    · subst h₁
      simpa [put] using hmem
    · rcases List.mem_cons.mp hmem with heq | htl
      · simp [put, h₁, heq]
      · have := ih htl
        simp [put, h₁, this]

theorem lookup_eq_none_of_not_mem_keys {β : Type} {k : String} {l : List (String × β)}
    (h : k ∉ l.map Prod.fst) : lookup k l = none := by
  induction l with
  | nil => rfl
  | cons hd tl ih =>
    obtain ⟨k₁, v₁⟩ := hd
    simp only [List.map_cons, List.mem_cons, not_or] at h
    simp [lookup, Ne.symm h.1, ih h.2]

theorem mem_of_lookup_eq_some {β : Type} {k : String} {v : β} {l : List (String × β)}
    (h : lookup k l = some v) : (k, v) ∈ l := by
  induction l with
  | nil => cases h
  | cons hd tl ih =>
    obtain ⟨k₁, v₁⟩ := hd
    by_cases h₁ : k₁ = k
    · subst h₁
      simp [lookup] at h
      simp [h]
    · simp [lookup, h₁] at h
      simp [ih h]

theorem value_unique_of_nodup_keys {β : Type} {l : List (String × β)}
    (hnd : (l.map Prod.fst).Nodup) {k : String} {v w : β}
    (hv : (k, v) ∈ l) (hw : (k, w) ∈ l) : v = w := by
  induction l with
  | nil => cases hv
  | cons hd tl ih =>
    obtain ⟨k₁, v₁⟩ := hd
    simp only [List.map_cons, List.nodup_cons] at hnd
    have hk : ∀ {x : β}, (k, x) ∈ tl → k ∈ tl.map Prod.fst := fun hx =>
      List.mem_map.mpr ⟨_, hx, rfl⟩
    rcases List.mem_cons.mp hv with e₁ | t₁ <;> rcases List.mem_cons.mp hw with e₂ | t₂
    · cases e₁; cases e₂; rfl
    · cases e₁; exact absurd (hk t₂) hnd.1
    · cases e₂; exact absurd (hk t₁) hnd.1
    · exact ih hnd.2 t₁ t₂

theorem groupOf_eq_of_lookup {g : String} {t : ThemeTree} {x : Group}
    (h : lookup g t = some x) : groupOf g t = x := by
  unfold groupOf
  rw [h]
  rfl

/-! ## The resolver model on the scenarios of the specification -/

/-- The named parts of the literal sit at their paths in `module.exports`. -/
theorem exports_paths :
    exports.get "content" = some content ∧
    exports.get "theme" = some theme ∧
    exports.get "plugins" = some plugins ∧
    theme.get "colors" = some colors ∧
    theme.get "extend" = some extend ∧
    extend.get "keyframes" = some keyframes ∧
    extend.get "animation" = some animation ∧
    keyframes.get "blink" = some blink :=
  ⟨rfl, rfl, rfl, rfl, rfl, rfl, rfl, rfl⟩

/-- The merge of the configuration's theme into a small default tree that
has a `colors` group, a `keyframes` group with `spin` and `blink`, and a
`spacing` group. -/
theorem merge_theme_sample :
    merge
        [("colors", [("black", .str "#000"), ("white", .str "#fff")]),
         ("keyframes", [("spin", .obj [("to", .obj [("transform", .str "rotate(360deg)")])]),
                        ("blink", .obj [("from", .obj [("opacity", .num 1)])])]),
         ("spacing", [("px", .str "1px")])]
        theme
      = .ok
        [("colors", colors.fields),
         ("keyframes", [("spin", .obj [("to", .obj [("transform", .str "rotate(360deg)")])]),
                        ("blink", .obj [("from", .obj [("opacity", .num 1)]),
                                        ("50%", .obj [("opacity", .num 0)])])]),
         ("spacing", [("px", .str "1px")]),
         ("animation", [("blink", .str "blink 1s ease-in-out infinite")])] := rfl

/-- Section 8, merge idempotence: an empty user tree leaves the default tree unchanged. -/
theorem merge_empty_user (d : ThemeTree) : merge d (.obj []) = .ok d := rfl

/-- Section 8, example scenario: a top-level `colors` replaces the default group. -/
theorem merge_override_scenario :
    merge [("colors", [("black", .str "#000"), ("white", .str "#fff")])]
        (.obj [("colors", .obj [("black", .str "#111")])])
      = .ok [("colors", [("black", .str "#111")])] := rfl

/-- Section 8, example scenario: `extend.colors` is unioned into the default group. -/
theorem merge_extend_scenario :
    merge [("colors", [("black", .str "#000"), ("white", .str "#fff")])]
        (.obj [("extend", .obj [("colors", .obj [("black", .str "#111")])])])
      = .ok [("colors", [("black", .str "#111"), ("white", .str "#fff")])] := rfl

/-- Section 4.2, tie-break: a name in both the override group and the
`extend` group takes the `extend` value. -/
theorem merge_tie_break_scenario :
    merge [("colors", [("black", .str "#000"), ("white", .str "#fff")])]
        (.obj [("colors", .obj [("black", .str "#111")]),
               ("extend", .obj [("colors", .obj [("black", .str "#222")])])])
      = .ok [("colors", [("black", .str "#222")])] := rfl

/-- Section 4.1: the three rejections of `normalize`, and the one of section 9. -/
theorem normalize_rejections :
    normalize (.bare [""]) "/proj" = .error (.InvalidGlobError "") ∧
    normalize (.bare ["  "]) "/proj" = .error (.InvalidGlobError "  ") ∧
    normalize (.bare ["src\\a.rs"]) "/proj" = .error (.InvalidGlobError "src\\a.rs") ∧
    normalize (.structured true ["/src/*.rs"]) "/proj"
      = .error (.InvalidGlobError "/src/*.rs") :=
  ⟨rfl, rfl, rfl, rfl⟩

/-- Stripping the leading `./` twice is stripping it once. -/
theorem stripDotSlash_idem (cs : List Char) :
    stripDotSlash (stripDotSlash cs) = stripDotSlash cs := by
  induction cs using stripDotSlash.induct with
  | case1 c d rest h ih => rw [stripDotSlash, if_pos h, ih]
  | case2 c d rest h =>
    have : stripDotSlash (c :: d :: rest) = c :: d :: rest := by
      rw [stripDotSlash, if_neg h]
    rw [this, this]
  | case3 cs h =>
    have : stripDotSlash cs = cs := by
      unfold stripDotSlash
      split
      · exact absurd rfl (h _ _ _)
      · rfl
    rw [this, this]

/-- A character found in the stripped pattern is found in the pattern. -/
theorem any_of_any_stripDotSlash (f : Char → Bool) (cs : List Char)
    (h : (stripDotSlash cs).any f = true) : cs.any f = true := by
  induction cs using stripDotSlash.induct with
  | case1 c d rest hc ih =>
    rw [stripDotSlash, if_pos hc] at h
    simp only [List.any_cons, Bool.or_eq_true]
    exact Or.inr (Or.inr (ih h))
  | case2 c d rest hc =>
    rw [stripDotSlash, if_neg hc] at h
    exact h
  | case3 cs hc =>
    have : stripDotSlash cs = cs := by
      unfold stripDotSlash
      split
      · exact absurd rfl (hc _ _ _)
      · rfl
    rw [this] at h
    exact h

/-- Section 3: an accepted pattern is the stripped input; it is not empty,
not white space only, and has no backslash. -/
theorem normalizePattern_ok {relative : Bool} {p q : String}
    (h : normalizePattern relative p = .ok q) :
    q = String.mk (stripDotSlash p.data) ∧ q ≠ "" ∧ isBlank q = false ∧
      usesBackslash q = false ∧ (relative = true → isAbsolutePattern q = false) := by
  unfold normalizePattern at h
  simp only at h
  split at h
  · cases h
  · rename_i h₁
    split at h
    · cases h
    · rename_i h₂
      injection h with h
      subst h
      simp only [Bool.or_eq_true, not_or, Bool.not_eq_true] at h₁
      simp only [Bool.and_eq_true, Bool.or_eq_true, not_and, not_or, Bool.not_eq_true] at h₂
      refine ⟨rfl, ?_, h₁.2, ?_, fun hr => (h₂ hr).2⟩
      · intro he
        rw [he] at h₁
        exact absurd h₁.2 (by decide)
      · cases hb : usesBackslash (String.mk (stripDotSlash p.data)) with
        | false => rfl
        | true =>
          have := any_of_any_stripDotSlash _ _ hb
          have h₃ : usesBackslash p = true := this
          rw [h₃] at h₁
          exact absurd h₁.1.2 (by decide)

/-- Section 8, glob normalization idempotence, for one pattern: an accepted
pattern is accepted again, unchanged. -/
theorem normalizePattern_idem {relative : Bool} {p q : String}
    (h : normalizePattern relative p = .ok q) :
    normalizePattern relative q = .ok q := by
  obtain ⟨hq, -, hblank, hback, habs⟩ := normalizePattern_ok h
  have hqq : String.mk (stripDotSlash q.data) = q := by
    rw [hq]
    show String.mk (stripDotSlash (stripDotSlash p.data)) = _
    rw [stripDotSlash_idem]
  unfold normalizePattern
  simp only [hqq, hblank, hback, Bool.or_self, Bool.false_eq_true, if_false]
  cases relative with
  | false => simp
  | true => simp [habs rfl]

/-- Section 8, glob normalization idempotence: normalizing the patterns of
a normalized list gives the same patterns. -/
theorem normalizePatterns_idem (relative : Bool) (ps : List String) :
    ∀ qs, normalizePatterns relative ps = .ok qs → normalizePatterns relative qs = .ok qs := by
  induction ps with
  | nil =>
    intro qs h
    cases h
    rfl
  | cons p ps ih =>
    intro qs h
    unfold normalizePatterns at h
    split at h
    · cases h
    · rename_i q hq
      split at h
      · cases h
      · rename_i qs' hqs
        cases h
        unfold normalizePatterns
        rw [normalizePattern_idem hq]
        simp only
        rw [ih qs' hqs]

/-- Section 3: a pattern that is nothing but `./` is rejected, and so is one
that `./` hides an absolute pattern in. -/
theorem normalize_rejects_hidden :
    normalize (.structured true ["./"]) "/proj" = .error (.InvalidGlobError "./") ∧
    normalize (.structured true [".//etc/*.rs"]) "/proj"
      = .error (.InvalidGlobError ".//etc/*.rs") :=
  ⟨rfl, rfl⟩

/-- A string, a number, a boolean or an array overwrites what is there. -/
theorem unionJs_str (o : Option Js) (s : String) : unionJs o (.str s) = .str s := by
  cases o <;> rfl

/-- A nested group overwrites what is not a nested group. -/
theorem unionJs_of_not_obj (v : Js) (e : List (String × Js))
    (h : ∀ b, v ≠ .obj b) : unionJs (some v) (.obj e) = .obj e := by
  cases v with
  | obj b => exact absurd rfl (h b)
  | _ => rfl

/-- Unioning `{opacity: 0}` onto anything gives a nested group with `opacity: 0`. -/
theorem unionJs_opacity (o : Option Js) :
    ∃ props, unionJs o (.obj [("opacity", .num 0)]) = .obj props ∧
      lookup "opacity" props = some (.num 0) := by
  rcases o with _ | v
  · exact ⟨_, rfl, rfl⟩
  · cases v with
    | obj b => exact ⟨put "opacity" (.num 0) b, rfl, lookup_put_self _ _ _⟩
    | num n => exact ⟨_, rfl, rfl⟩
    | str s => exact ⟨_, rfl, rfl⟩
    | bool b => exact ⟨_, rfl, rfl⟩
    | arr xs => exact ⟨_, rfl, rfl⟩

/-- The merge of the configuration's theme into any default tree, computed. -/
theorem merge_theme_eq (d : ThemeTree) :
    merge d theme = .ok
      (put "animation" (put "blink" (.str "blink 1s ease-in-out infinite") (groupOf "animation" d))
        (put "keyframes"
          (put "blink" (unionJs (lookup "blink" (groupOf "keyframes" d)) blink)
            (groupOf "keyframes" d))
          (put "colors" colors.fields d))) := by
  have hk : groupOf "keyframes" (put "colors" colors.fields d) = groupOf "keyframes" d := by
    unfold groupOf
    rw [lookup_put_of_ne (by decide)]
  have ha : ∀ g : Group, groupOf "animation" (put "keyframes" g (put "colors" colors.fields d))
        = groupOf "animation" d := by
    intro g
    unfold groupOf
    rw [lookup_put_of_ne (by decide), lookup_put_of_ne (by decide)]
  have h : merge d theme = .ok
      (put "animation" (unionFields (groupOf "animation"
          (put "keyframes" (unionFields (groupOf "keyframes" (put "colors" colors.fields d))
            keyframes.fields) (put "colors" colors.fields d))) animation.fields)
        (put "keyframes" (unionFields (groupOf "keyframes" (put "colors" colors.fields d))
          keyframes.fields) (put "colors" colors.fields d))) := rfl
  rw [h]
  have hu₁ : ∀ g : Group, unionFields g keyframes.fields
      = put "blink" (unionJs (lookup "blink" g) blink) g := fun _ => rfl
  have hu₂ : ∀ g : Group, unionFields g animation.fields
      = put "blink" (.str "blink 1s ease-in-out infinite") g := by
    intro g
    show put "blink" (unionJs (lookup "blink" g) (.str "blink 1s ease-in-out infinite")) g = _
    rw [unionJs_str]
  rw [hu₁, hu₂, hk, ha]

/-- The groups of the merge of the configuration's theme into any default tree. -/
theorem merge_theme_groups (d : ThemeTree) :
    ∃ m, merge d theme = .ok m ∧
      lookup "colors" m = some colors.fields ∧
      groupOf "keyframes" m
        = put "blink" (unionJs (lookup "blink" (groupOf "keyframes" d)) blink)
            (groupOf "keyframes" d) ∧
      groupOf "animation" m
        = put "blink" (.str "blink 1s ease-in-out infinite") (groupOf "animation" d) := by
  refine ⟨_, merge_theme_eq d, ?_, ?_, ?_⟩
  · rw [lookup_put_of_ne (by decide), lookup_put_of_ne (by decide), lookup_put_self]
  · apply groupOf_eq_of_lookup
    rw [lookup_put_of_ne (by decide), lookup_put_self]
  · apply groupOf_eq_of_lookup
    rw [lookup_put_self]

/-! ## The claims -/

/-- C1: every entry of `theme.extend.animation` is a shorthand string whose
keyframe-set reference, its first whitespace-separated word, is a key of
`theme.extend.keyframes`; the only entry is `blink`, it references `blink`,
and `blink` is a key of the keyframes group. -/
theorem C1_animation_references_resolve :
    (∀ kv ∈ animation.fields, ∃ s, kv.2 = .str s ∧ firstWord s ∈ keyframes.keys) ∧
    animation.fields = [("blink", .str "blink 1s ease-in-out infinite")] ∧
    firstWord "blink 1s ease-in-out infinite" = "blink" ∧
    "blink" ∈ keyframes.keys := by
  refine ⟨?_, rfl, by decide, by decide⟩
  intro kv hkv
  have hkv' : kv = ("blink", .str "blink 1s ease-in-out infinite") := by
    simpa [animation, Js.fields] using hkv
  subst hkv'
  exact ⟨_, rfl, by decide⟩

/-- C2: `content.files` is the two patterns `*.html` and `./src/**/*.rs`, and
each of them is non-empty, is not made of white space only, and contains no
backslash. -/
theorem C2_content_patterns_well_formed :
    ∃ files, contentFiles = some files ∧ files = ["*.html", "./src/**/*.rs"] ∧
      ∀ p ∈ files, p ≠ "" ∧ isBlank p = false ∧ usesBackslash p = false :=
  ⟨_, rfl, rfl, by decide⟩

/-- C3: `theme.colors` has 21 token names, none of them empty, pairwise
distinct as strings (so `black` and `brightBlack`, both present, differ), and
no name is paired with two values. -/
theorem C3_color_names_unique :
    colors.keys.length = 21 ∧
    (∀ k ∈ colors.keys, k ≠ "") ∧
    colors.keys.Nodup ∧
    ("black" ∈ colors.keys ∧ "brightBlack" ∈ colors.keys ∧ "black" ≠ "brightBlack") ∧
    (∀ k v w, (k, v) ∈ colors.fields → (k, w) ∈ colors.fields → v = w) := by
  have hnd : colors.keys.Nodup := by decide
  exact ⟨by decide, by decide, hnd, by decide,
    fun _ _ _ hv hw => value_unique_of_nodup_keys hnd hv hw⟩

/-- C4: the configuration's content descriptor reads as
`{relative: true, files: ["*.html", "./src/**/*.rs"]}`, and normalizing it
against the project root `/proj` succeeds with base path `/proj` and the
patterns `*.html`, `src/**/*.rs`, in that order. -/
theorem C4_normalize_content :
    ∃ c, readContent content = some c ∧
      c = .structured true ["*.html", "./src/**/*.rs"] ∧
      normalize c "/proj"
        = .ok { basePath := "/proj", patterns := ["*.html", "src/**/*.rs"] } :=
  ⟨_, rfl, rfl, rfl⟩

/-- C5: `colors` is a top-level key of `theme` and not a key of
`theme.extend`; for every default theme tree, merging the configuration's
theme succeeds and the merged `colors` group is exactly the 21 pairs of
`theme.colors`: a name outside those 21 has no entry, and every entry that
is there carries the configured value. -/
theorem C5_override_replaces_colors (d : ThemeTree) :
    (theme.get "colors" = some colors ∧ extend.get "colors" = none) ∧
    ∃ m, merge d theme = .ok m ∧
      lookup "colors" m = some colors.fields ∧
      (groupOf "colors" m).length = 21 ∧
      (∀ k, k ∉ colors.keys → lookup k (groupOf "colors" m) = none) ∧
      (∀ k v, lookup k (groupOf "colors" m) = some v → (k, v) ∈ colors.fields) := by
  obtain ⟨m, hm, hc, -, -⟩ := merge_theme_groups d
  refine ⟨⟨rfl, rfl⟩, m, hm, hc, ?_⟩
  have hg : groupOf "colors" m = colors.fields := groupOf_eq_of_lookup hc
  rw [hg]
  exact ⟨rfl, fun k hk => lookup_eq_none_of_not_mem_keys hk,
    fun k v hkv => mem_of_lookup_eq_some hkv⟩

/-- C6 as stated fails: into a default tree whose `keyframes` group has
`blink: {from: {opacity: 1}}`, the merge keeps the default selector `from`
beside the configured `50%`, so the merged `blink` is not the configured
keyframe set. -/
theorem C6_counterexample_default_blink_selectors_kept :
    ∃ m, merge [("keyframes", [("blink", .obj [("from", .obj [("opacity", .num 1)])])])] theme
        = .ok m ∧
      lookup "blink" (groupOf "keyframes" m)
        = some (.obj [("from", .obj [("opacity", .num 1)]), ("50%", .obj [("opacity", .num 0)])]) ∧
      lookup "blink" (groupOf "keyframes" m) ≠ some blink := by
  refine ⟨_, rfl, rfl, ?_⟩
  intro h
  have hkeys := congrArg (Option.map Js.keys) h
  exact absurd hkeys (by decide)

/-- C6, amended: `keyframes` and `animation` are keys of `theme.extend` and
not top-level keys of `theme`; for every default theme tree, merging the
configuration's theme succeeds.  The merged `keyframes` group holds every
default keyframes entry whose name is not `blink` and gives every name other
than `blink` the value the default gives it.  Its `blink` is the configured
keyframe set when the default has no `blink` or one that is not a nested
group; when the default `blink` is a nested group, the merged `blink` keeps
every default selector, unchanged if it is not `50%`, and its `50%` holds
`opacity: 0`.  The merged `animation` group holds every default animation
entry whose name is not `blink`, unchanged, and gives `blink` the configured
shorthand.  Every default name of either group is still a name of the merged
group. -/
theorem C6_extend_unions_keyframes_and_animation (d : ThemeTree) :
    (theme.get "keyframes" = none ∧ theme.get "animation" = none ∧
      extend.get "keyframes" = some keyframes ∧ extend.get "animation" = some animation) ∧
    ∃ m, merge d theme = .ok m ∧
      (∀ kv ∈ groupOf "keyframes" d, kv.1 ≠ "blink" → kv ∈ groupOf "keyframes" m) ∧
      (∀ k, k ≠ "blink" →
        lookup k (groupOf "keyframes" m) = lookup k (groupOf "keyframes" d)) ∧
      (lookup "blink" (groupOf "keyframes" d) = none →
        lookup "blink" (groupOf "keyframes" m) = some blink) ∧
      (∀ v, lookup "blink" (groupOf "keyframes" d) = some v → (∀ b, v ≠ .obj b) →
        lookup "blink" (groupOf "keyframes" m) = some blink) ∧
      (∀ sels, lookup "blink" (groupOf "keyframes" d) = some (.obj sels) →
        ∃ sels', lookup "blink" (groupOf "keyframes" m) = some (.obj sels') ∧
          (∀ s, s ≠ "50%" → lookup s sels' = lookup s sels) ∧
          (∀ s ∈ sels.map Prod.fst, s ∈ sels'.map Prod.fst) ∧
          ∃ props, lookup "50%" sels' = some (.obj props) ∧
            lookup "opacity" props = some (.num 0)) ∧
      (∀ kv ∈ groupOf "animation" d, kv.1 ≠ "blink" → kv ∈ groupOf "animation" m) ∧
      (∀ k, k ≠ "blink" →
        lookup k (groupOf "animation" m) = lookup k (groupOf "animation" d)) ∧
      lookup "blink" (groupOf "animation" m) = some (.str "blink 1s ease-in-out infinite") ∧
      (∀ k ∈ (groupOf "keyframes" d).map Prod.fst, k ∈ (groupOf "keyframes" m).map Prod.fst) ∧
      (∀ k ∈ (groupOf "animation" d).map Prod.fst, k ∈ (groupOf "animation" m).map Prod.fst) := by
  obtain ⟨m, hm, -, hk, ha⟩ := merge_theme_groups d
  refine ⟨⟨rfl, rfl, rfl, rfl⟩, m, hm, ?_⟩
  rw [hk, ha]
  refine ⟨fun kv hkv hne => mem_put_of_mem_of_ne _ hkv hne,
    fun k hne => lookup_put_of_ne hne _ _, ?_, ?_, ?_,
    fun kv hkv hne => mem_put_of_mem_of_ne _ hkv hne,
    fun k hne => lookup_put_of_ne hne _ _,
    lookup_put_self _ _ _,
    fun k hmem => mem_keys_put _ _ hmem,
    fun k hmem => mem_keys_put _ _ hmem⟩
  · intro hnone
    rw [lookup_put_self, hnone]
    rfl
  · intro v hv hnot
    rw [lookup_put_self, hv]
    exact congrArg some (unionJs_of_not_obj v _ hnot)
  · intro sels hsels
    rw [lookup_put_self, hsels]
    obtain ⟨props, hprops, hop⟩ := unionJs_opacity (lookup "50%" sels)
    refine ⟨put "50%" (unionJs (lookup "50%" sels) (.obj [("opacity", .num 0)])) sels,
      rfl, fun s hne => lookup_put_of_ne hne _ _, fun s hmem => mem_keys_put _ _ hmem,
      props, ?_, hop⟩
    rw [lookup_put_self, hprops]

/-- C7: every keyframe set of `theme.extend.keyframes` has at least one
selector and each of its selectors is a percentage from 0 to 100 or one of
`from`, `to`; the only keyframe set is `blink`, with the single selector `50%`. -/
theorem C7_keyframe_selectors_valid :
    (∀ kv ∈ keyframes.fields, kv.2.fields ≠ [] ∧ ∀ sel ∈ kv.2.keys, isSelector sel = true) ∧
    keyframes.keys = ["blink"] ∧
    keyframes.get "blink" = some blink ∧
    blink.keys = ["50%"] ∧
    isPercentage "50%" = true := by
  refine ⟨?_, rfl, rfl, rfl, by decide⟩
  intro kv hkv
  have hkv' : kv = ("blink", blink) := by
    simpa [keyframes, Js.fields] using hkv
  subst hkv'
  exact ⟨by simp [blink, Js.fields], by decide⟩

/-- C8: every entry of `theme.extend.animation` is a string that splits on
single spaces into exactly four components, none empty, the last being a
number or `infinite`; `blink` splits into `blink`, `1s`, `ease-in-out`,
`infinite`. -/
theorem C8_animation_shorthand_components :
    (∀ kv ∈ animation.fields, ∃ s ref duration timing count,
      kv.2 = .str s ∧ components s = [ref, duration, timing, count] ∧
      ref ≠ "" ∧ duration ≠ "" ∧ timing ≠ "" ∧ count ≠ "" ∧
      isIterationCount count = true) ∧
    animation.get "blink" = some (.str "blink 1s ease-in-out infinite") ∧
    components "blink 1s ease-in-out infinite" = ["blink", "1s", "ease-in-out", "infinite"] := by
  refine ⟨?_, rfl, by decide⟩
  intro kv hkv
  have hkv' : kv = ("blink", .str "blink 1s ease-in-out infinite") := by
    simpa [animation, Js.fields] using hkv
  subst hkv'
  exact ⟨_, "blink", "1s", "ease-in-out", "infinite", rfl, by decide, by decide, by decide,
    by decide, by decide, by decide⟩

/-- C9: `content.relative` is `true`, and no pattern of `content.files`
begins with `/` or with a drive letter and a colon. -/
theorem C9_relative_without_absolute_patterns :
    content.get "relative" = some (.bool true) ∧
    ∃ files, contentFiles = some files ∧
      ∀ p ∈ files, startsWithSlash p = false ∧ hasDriveLetter p = false ∧
        isAbsolutePattern p = false :=
  ⟨rfl, _, rfl, by decide⟩

/-- C10: every value of `theme.colors` is a string of exactly seven
characters, the first being `#` (character 35) and the other six lowercase
hexadecimal digits. -/
theorem C10_color_values_hex :
    ∃ vs, stringValues colors.fields = some vs ∧ vs.length = 21 ∧
      ∀ v ∈ vs, v.length = 7 ∧ v.data.head? = some (Char.ofNat 35) ∧
        (v.data.tail.length = 6 ∧ ∀ c ∈ v.data.tail, isLowerHexDigit c = true) :=
  ⟨_, rfl, by decide, by decide⟩

end TailwindConfig
